import Mathlib

/-!
Verification development for the `starter` terminal process dashboard.

The program supervises a small set of child processes (src/process.rs),
rendering their output in scrollable panes and translating key presses
into Start/Stop commands (src/tui.rs).  The definitions below are a
shallow embedding of those two modules: pure functions over explicit
state, with side effects (process spawns, kill signals, channel sends)
recorded as explicit event values.
-/

namespace Starter

/-! ## Process session embedding (src/process.rs) -/

/-- Commands accepted by a session's inbox (`enum ProcessCommand`). -/
inductive ProcessCommand where
  | start
  | stop
deriving DecidableEq

/-- Mutable state of one session's reader task in `spawn_reader`:
the optional child handle and the optional process-group id. -/
structure SessionState where
  child : Option Nat
  child_pgid : Option Int
deriving DecidableEq

/-- Observable side effects of the session task: a call to `spawn_child`,
a call to `spawn_output_readers` on a freshly spawned child, a
`killpg(pgid, SIGKILL)`, and a `child.kill()`. -/
inductive SessionEvent where
  | spawnAttempt
  | readersActivated (handle : Nat)
  | killpg (pgid : Int)
  | killChild (handle : Nat)
deriving DecidableEq

/-- Outcome of `spawn_child`: `some (handle, pgid)` on success; `none`
models `.spawn()` returning `Err`, on which the code's
`.expect("Failed to start process")` panics the task. -/
def SpawnResult : Type := Option (Nat × Option Int)

/-- `stop_child` (src/process.rs, unix branch): if a child handle is held,
take it, send SIGKILL to the process group when a group id is recorded,
and kill the direct child; otherwise do nothing. -/
def stop_child (s : SessionState) : SessionState × List SessionEvent :=
  match s.child with
  | some c =>
    match s.child_pgid with
    | some pg => (⟨none, none⟩, [SessionEvent.killpg pg, SessionEvent.killChild c])
    | none => (⟨none, none⟩, [SessionEvent.killChild c])
  | none => (s, [])

/-- One iteration of the command loop in `spawn_reader`.  The first
component is `none` when the task panicked (spawn failure hit
`.expect`), otherwise the updated state. -/
def session_step (spawnRes : SpawnResult) (cmd : ProcessCommand) (s : SessionState) :
    Option SessionState × List SessionEvent :=
  match cmd with
  | ProcessCommand.start =>
    match s.child with
    | some _ => (some s, [])
    | none =>
      match spawnRes with
      | none => (none, [SessionEvent.spawnAttempt])
      | some (c, pg) =>
        (some ⟨some c, pg⟩, [SessionEvent.spawnAttempt, SessionEvent.readersActivated c])
  | ProcessCommand.stop =>
    let r := stop_child s
    (some r.1, r.2)

/-- The command loop of `spawn_reader` over a finite batch of inbox
commands.  A panicked task processes no further commands. -/
def session_loop (spawnRes : SpawnResult) :
    List ProcessCommand → SessionState → Option SessionState × List SessionEvent
  | [], s => (some s, [])
  | cmd :: rest, s =>
    match session_step spawnRes cmd s with
    | (none, ev) => (none, ev)
    | (some s2, ev) =>
      let r := session_loop spawnRes rest s2
      (r.1, ev ++ r.2)

/-! ## Supervisor embedding (`ProcessManager`, src/process.rs) -/

/-- `ProcessManager`: the vector of per-session command senders,
represented by session indices. -/
structure ProcessManager where
  control_senders : List Nat
deriving DecidableEq

/-- The `for tx in &self.control_senders { let _ = tx.try_send(Stop); }`
loop shared by `stop_all` and `Drop::drop`, as the ordered list of
performed sends. -/
def send_stop_events : List Nat → List (Nat × ProcessCommand)
  | [] => []
  | tx :: rest => (tx, ProcessCommand.stop) :: send_stop_events rest

/-- `ProcessManager::stop_all`: broadcast Stop, then
`thread::sleep(Duration::from_millis(200))`.  Result: the send events
and the blocked duration in milliseconds. -/
def stop_all (m : ProcessManager) : List (Nat × ProcessCommand) × Nat :=
  (send_stop_events m.control_senders, 200)

/-- `impl Drop for ProcessManager`: the same broadcast followed by the
same 200 ms sleep. -/
def drop_manager (m : ProcessManager) : List (Nat × ProcessCommand) × Nat :=
  (send_stop_events m.control_senders, 200)

/-! ## Line reader embedding (`handle_output_owned`, src/process.rs) -/

/-- How the stream ends after its content: a clean end-of-file
(`read_line` returns `Ok(0)`) or a read error (`read_line` returns
`Err`). -/
inductive StreamEnd where
  | eof
  | readError
deriving DecidableEq

/-- The result of one `reader.read_line(&mut line).await` at the very
end of the stream: 0 bytes on EOF, an error on a failed read. -/
def stream_end_read (ending : StreamEnd) : Except Unit Nat :=
  match ending with
  | StreamEnd.eof => Except.ok 0
  | StreamEnd.readError => Except.error ()

/-- `.unwrap_or(0)` applied to a `read_line` byte count. -/
def unwrap_or_zero (r : Except Unit Nat) : Nat :=
  match r with
  | Except.error _ => 0
  | Except.ok n => n

/-- Rust `char::is_whitespace`: the Unicode `White_Space` property. -/
def rust_is_whitespace (c : Char) : Bool :=
  let n := c.toNat
  (9 ≤ n && n ≤ 13) || n == 32 || n == 133 || n == 160 || n == 5760 ||
    (8192 ≤ n && n ≤ 8202) || n == 8232 || n == 8233 || n == 8239 ||
    n == 8287 || n == 12288

/-- Rust `str::trim_end`: remove all trailing whitespace characters. -/
def rust_trim_end (l : List Char) : List Char :=
  (l.reverse.dropWhile rust_is_whitespace).reverse

/-- The `while read_line(&mut line) > 0 { send(line.trim_end()); line.clear() }`
loop of `handle_output_owned`.  The first list argument is the pending
(reversed) content of the `line` buffer; the second is the remaining
stream content.  How the end of the stream behaves depends on `ending`:
on EOF the `read_line` that reaches the end returns `Ok(n)` with the
final newline-less segment, which (when non-empty) is still sent, and
the following `Ok(0)` exits the loop; on a read error that same
`read_line` returns `Err`, so `.unwrap_or(0)` exits the loop at once
and the partially buffered segment is never sent. -/
def reader_loop (ending : StreamEnd) : List Char → List Char → List (List Char)
  | acc, [] =>
    match ending with
    | StreamEnd.eof => if acc.isEmpty then [] else [rust_trim_end acc.reverse]
    | StreamEnd.readError => []
  | acc, c :: rest =>
    if c = '\n' then rust_trim_end (c :: acc).reverse :: reader_loop ending [] rest
    else reader_loop ending (c :: acc) rest

/-- `handle_output_owned`: the lines the reader task sends to the
output channel, given the stream's content and how it ends. -/
def handle_output_owned (ending : StreamEnd) (cs : List Char) : List (List Char) :=
  reader_loop ending [] cs

/-- Modelled from the spec: the stream's lines in stream order, each
line carrying its terminating newline when one is present, with a final
partial (newline-less) segment counting as the last line.  Used as the
reference segmentation when settling the reader's contract. -/
def split_lines_aux : List Char → List Char → List (List Char)
  | acc, [] => if acc.isEmpty then [] else [acc.reverse]
  | acc, c :: rest =>
    if c = '\n' then (c :: acc).reverse :: split_lines_aux [] rest
    else split_lines_aux (c :: acc) rest

/-- The stream's raw lines (newline kept), see `split_lines_aux`. -/
def stream_lines (cs : List Char) : List (List Char) :=
  split_lines_aux [] cs

/-- Modelled from the spec: only the stream's newline-terminated lines,
in stream order; a trailing segment with no newline is not one of them.
Reference segmentation for the read-error ending, where the read that
was filling that segment fails. -/
def complete_lines_aux : List Char → List Char → List (List Char)
  | _, [] => []
  | acc, c :: rest =>
    if c = '\n' then (c :: acc).reverse :: complete_lines_aux [] rest
    else complete_lines_aux (c :: acc) rest

/-- The stream's newline-terminated lines, see `complete_lines_aux`. -/
def complete_lines (cs : List Char) : List (List Char) :=
  complete_lines_aux [] cs

/-- Modelled from the spec: strip exactly the trailing newline of a
line, and nothing else ("the line content with its trailing newline
stripped"). -/
def strip_trailing_newline (l : List Char) : List Char :=
  if l.getLast? = some '\n' then l.dropLast else l

/-! ## Dashboard loop embedding (src/tui.rs) -/

/-- The terminal flags the dashboard touches: raw mode, alternate
screen, cursor visibility. -/
structure TermState where
  rawMode : Bool
  altScreen : Bool
  cursorShown : Bool
deriving DecidableEq

/-- Outcome of one iteration of the `loop` in `run_tui`: the
`terminal.draw(..)?` fails, the `handle_input_event(..)?` fails, the
quit key is seen (`Ok(true)`), or the loop continues (`Ok(false)`). -/
inductive IterOutcome where
  | drawErr
  | inputErr
  | quitKey
  | keepLooping
deriving DecidableEq

/-- The restoration sequence after the loop in `run_tui`:
`disable_raw_mode()`, `LeaveAlternateScreen`, `show_cursor()`. -/
def tui_restore (t : TermState) : TermState :=
  { t with rawMode := false, altScreen := false, cursorShown := true }

/-- The `loop` of `run_tui` over a trace of iteration outcomes.
Returns the terminal state at return together with `true` for the `Ok`
exit and `false` for an `Err` propagated by `?`; `none` means the trace
ended with the loop still running.  A failing `draw` or input poll
returns through `?` immediately, before any restoration; the quit key
breaks to the restoration sequence. -/
def tui_loop : List IterOutcome → TermState → Option (TermState × Bool)
  | [], _ => none
  | o :: rest, t =>
    match o with
    | IterOutcome.drawErr => some (t, false)
    | IterOutcome.inputErr => some (t, false)
    | IterOutcome.quitKey => some (tui_restore t, true)
    | IterOutcome.keepLooping => tui_loop rest t

/-- `run_tui` after its initialization (`enable_raw_mode()`,
`EnterAlternateScreen`): raw mode and the alternate screen active, the
cursor as the terminal had it (shown). -/
def run_tui (tr : List IterOutcome) : Option (TermState × Bool) :=
  tui_loop tr ⟨true, true, true⟩

/-- One pane's slice of `update_buffers_and_scroll`: drain the received
lines in order into the buffer; after each push, with `blen` the buffer
length as `u16` and `vh` the pane's visible height
(`area.height.saturating_sub(2)`), set the offset to `blen - vh` when
`blen > vh && vh > 0`. -/
def drain_pane (vh : Nat) : List String → List String × Nat → List String × Nat
  | [], st => st
  | l :: rest, (buf, off) =>
    let buf2 := buf ++ [l]
    let blen := buf2.length % 65536
    let off2 := if vh < blen ∧ 0 < vh then blen - vh else off
    drain_pane vh rest (buf2, off2)

/-- The Up-arrow branch per pane: `if *offset > 0 { *offset -= 1 }`. -/
def up_scroll (o : Nat) : Nat :=
  if 0 < o then o - 1 else o

/-- The Down-arrow branch per pane:
`max_offset = buffers[i].len().saturating_sub(1) as u16;
if *offset < max_offset { *offset += 1 }`. -/
def down_scroll (bufLen o : Nat) : Nat :=
  if o < (bufLen - 1) % 65536 then o + 1 else o

/-- Key events as far as `handle_input_event` distinguishes them;
`none` at the call site models `event::poll` timing out. -/
inductive KeyCode where
  | charKey (c : Char)
  | upKey
  | downKey
  | otherKey
deriving DecidableEq

/-- The dashboard state `handle_input_event` can touch: the running
flags, the scroll offsets, and the (read-only) pane buffers. -/
structure UiState where
  running : List Bool
  scroll_offsets : List Nat
  buffers : List (List String)
deriving DecidableEq

/-- `handle_input_event`: returns the quit flag, the updated state, and
the list of `(session index, command)` sends performed via `try_send`.
Digit guard is the source's `c >= '1' && (c as usize - '1' as usize) < running.len()`
(`'1' as usize` is 49); the second, unreachable digit arm guards on
`scroll_offsets.len()`. -/
def handle_input_event (ev : Option KeyCode) (st : UiState) :
    Bool × UiState × List (Nat × ProcessCommand) :=
  match ev with
  | none => (false, st, [])
  | some k =>
    match k with
    | KeyCode.charKey c =>
      if c = 'q' then (true, st, [])
      else if '1' ≤ c ∧ c.toNat - 49 < st.running.length then
        let idx := c.toNat - 49
        let newVal := !(st.running.getD idx false)
        let cmd := if newVal then ProcessCommand.start else ProcessCommand.stop
        (false, ⟨st.running.set idx newVal, st.scroll_offsets, st.buffers⟩, [(idx, cmd)])
      else if '1' ≤ c ∧ c.toNat - 49 < st.scroll_offsets.length then
        (false, st, [])
      else (false, st, [])
    | KeyCode.upKey =>
      (false, ⟨st.running, st.scroll_offsets.map up_scroll, st.buffers⟩, [])
    | KeyCode.downKey =>
      let offs2 := List.zipWith (fun o bl => down_scroll bl o)
        st.scroll_offsets (st.buffers.map List.length)
      (false, ⟨st.running, offs2, st.buffers⟩, [])
    | KeyCode.otherKey => (false, st, [])

/-! ## Helper lemmas -/

theorem list_getD_set_self {α : Type} (l : List α) (i : Nat) (a d : α) (h : i < l.length) :
    (l.set i a).getD i d = a := by
  rw [List.getD_eq_getElem?_getD, List.getElem?_set_self h]
  rfl

theorem list_getD_set_ne {α : Type} (l : List α) (i j : Nat) (a d : α) (h : i ≠ j) :
    (l.set i a).getD j d = l.getD j d := by
  rw [List.getD_eq_getElem?_getD, List.getElem?_set_ne h, ← List.getD_eq_getElem?_getD]

theorem reader_loop_eof_eq_map_trim (cs : List Char) :
    ∀ acc, reader_loop StreamEnd.eof acc cs = (split_lines_aux acc cs).map rust_trim_end := by
  induction cs with
  | nil =>
    intro acc
    by_cases h : acc.isEmpty <;> simp [reader_loop, split_lines_aux, h]
  | cons c rest ih =>
    intro acc
    by_cases h : c = '\n' <;> simp [reader_loop, split_lines_aux, h, ih]

theorem reader_loop_err_eq_map_trim (cs : List Char) :
    ∀ acc, reader_loop StreamEnd.readError acc cs =
      (complete_lines_aux acc cs).map rust_trim_end := by
  induction cs with
  | nil => intro acc; simp [reader_loop, complete_lines_aux]
  | cons c rest ih =>
    intro acc
    by_cases h : c = '\n' <;> simp [reader_loop, complete_lines_aux, h, ih]

theorem tui_loop_spec (tr : List IterOutcome) :
    ∀ (t st : TermState) (ok : Bool), tui_loop tr t = some (st, ok) →
      (ok = true → st = tui_restore t) ∧ (ok = false → st = t) := by
  induction tr with
  | nil => intro t st ok h; simp [tui_loop] at h
  | cons o rest ih =>
    intro t st ok h
    cases o with
    | drawErr =>
      simp [tui_loop] at h
      exact ⟨fun hk => absurd (h.2.symm.trans hk) (by decide), fun _ => h.1.symm⟩
    | inputErr =>
      simp [tui_loop] at h
      exact ⟨fun hk => absurd (h.2.symm.trans hk) (by decide), fun _ => h.1.symm⟩
    | quitKey =>
      simp [tui_loop] at h
      exact ⟨fun _ => h.1.symm, fun hk => absurd (h.2.symm.trans hk) (by decide)⟩
    | keepLooping =>
      simp only [tui_loop] at h
      exact ih t st ok h

theorem drain_pane_fst (vh : Nat) (new : List String) :
    ∀ buf off, (drain_pane vh new (buf, off)).1 = buf ++ new := by
  induction new with
  | nil => intro buf off; simp [drain_pane]
  | cons l rest ih => intro buf off; simp [drain_pane, ih]

theorem drain_pane_snd_closed (vh : Nat) (new : List String) :
    ∀ buf off, buf.length + new.length < 65536 →
      (drain_pane vh new (buf, off)).2 =
        if 0 < new.length ∧ vh < buf.length + new.length ∧ 0 < vh
        then buf.length + new.length - vh else off := by
  induction new with
  | nil => intro buf off _; simp [drain_pane]
  | cons l rest ih =>
    intro buf off hlen
    simp only [List.length_cons] at hlen
    simp only [drain_pane]
    rw [ih (buf ++ [l]) _ (by
      simp only [List.length_append, List.length_singleton, List.length_cons, List.length_nil]
      omega)]
    simp only [List.length_append, List.length_singleton, List.length_cons, List.length_nil]
    split_ifs <;> omega

theorem drain_pane_snd_le (vh : Nat) (new : List String) :
    ∀ buf off, off ≤ buf.length - 1 →
      (drain_pane vh new (buf, off)).2 ≤ (buf ++ new).length - 1 := by
  induction new with
  | nil => intro buf off h; simpa [drain_pane] using h
  | cons l rest ih =>
    intro buf off h
    simp only [drain_pane]
    have hb : (if vh < (buf ++ [l]).length % 65536 ∧ 0 < vh
        then (buf ++ [l]).length % 65536 - vh else off) ≤ (buf ++ [l]).length - 1 := by
      have hmod : (buf ++ [l]).length % 65536 ≤ (buf ++ [l]).length := Nat.mod_le _ _
      simp only [List.length_append, List.length_singleton] at hmod ⊢
      split_ifs <;> omega
    have := ih (buf ++ [l]) _ hb
    simpa [List.append_assoc] using this

theorem send_stop_events_eq_map (l : List Nat) :
    send_stop_events l = l.map (fun tx => (tx, ProcessCommand.stop)) := by
  induction l with
  | nil => rfl
  | cons tx rest ih => simp [send_stop_events, ih]

/-! ## Claim theorems -/

/-- C1: a `Start` command processed while the session is Running (a
child handle is held) is ignored: no spawn, no reader activation, no
kill — no event at all — and the child handle and process-group id are
unchanged, so at most one child handle is live per session. -/
theorem start_while_running_ignored (spawnRes : SpawnResult) (s : SessionState) (c : Nat)
    (h : s.child = some c) :
    session_step spawnRes ProcessCommand.start s = (some s, []) := by
  simp [session_step, h]

theorem start_while_running_witness :
    session_step (some (9, some 9)) ProcessCommand.start ⟨some 7, some 5⟩ =
      (some ⟨some 7, some 5⟩, []) :=
  start_while_running_ignored (some (9, some 9)) ⟨some 7, some 5⟩ 7 rfl

/-- C2 counterexample: the claim says the terminal is restored on every
exit of `run_tui`, including exits caused by a rendering or polling
error; but a failing `terminal.draw(..)?` in the first iteration
returns with raw mode still enabled and the alternate screen still
active. -/
theorem run_tui_error_unrestored :
    ¬ (∀ (tr : List IterOutcome) (st : TermState) (ok : Bool),
        run_tui tr = some (st, ok) →
        st.rawMode = false ∧ st.altScreen = false ∧ st.cursorShown = true) := by
  intro h
  have h2 := h [IterOutcome.drawErr] ⟨true, true, true⟩ false rfl
  exact absurd h2.1 (by decide)

/-- C2 amended: `run_tui` restores the terminal (raw mode off,
alternate screen left, cursor shown) exactly when the loop ends via the
quit key; an error raised by rendering or input polling mid-loop
propagates through `?` and the function returns with raw mode still
enabled and the alternate screen still active. -/
theorem run_tui_restore_characterization (tr : List IterOutcome) (st : TermState) (ok : Bool)
    (h : run_tui tr = some (st, ok)) :
    (ok = true → st = ⟨false, false, true⟩) ∧ (ok = false → st = ⟨true, true, true⟩) :=
  tui_loop_spec tr ⟨true, true, true⟩ st ok h

theorem run_tui_restore_witness :
    run_tui [IterOutcome.quitKey] = some (⟨false, false, true⟩, true) ∧
      (⟨false, false, true⟩ : TermState) = ⟨false, false, true⟩ :=
  ⟨rfl, (run_tui_restore_characterization [IterOutcome.quitKey] ⟨false, false, true⟩ true rfl).1 rfl⟩

/-- C3: processing `Stop` while Running kills the recorded process
group when a group id is known, unconditionally also kills the direct
child handle, and discards both (back to Idle); processing `Stop` while
Idle changes nothing. -/
theorem stop_command_spec (spawnRes : SpawnResult) (s : SessionState) :
    (∀ c pg, s.child = some c → s.child_pgid = some pg →
      session_step spawnRes ProcessCommand.stop s =
        (some ⟨none, none⟩, [SessionEvent.killpg pg, SessionEvent.killChild c])) ∧
    (∀ c, s.child = some c → s.child_pgid = none →
      session_step spawnRes ProcessCommand.stop s =
        (some ⟨none, none⟩, [SessionEvent.killChild c])) ∧
    (s.child = none → session_step spawnRes ProcessCommand.stop s = (some s, [])) := by
  refine ⟨?_, ?_, ?_⟩ <;> intros <;> simp [session_step, stop_child, *]

theorem stop_command_witness :
    session_step none ProcessCommand.stop ⟨some 7, some 5⟩ =
      (some ⟨none, none⟩, [SessionEvent.killpg 5, SessionEvent.killChild 7]) :=
  (stop_command_spec none ⟨some 7, some 5⟩).1 7 5 rfl rfl

/-- C4 counterexample: the claim says that whenever the drain step
leaves the buffer length ≥ the visible height H, the offset equals
`buffer_length - H`, and that the offset is left at 0 when the buffer
is shorter.  With H = 5, a buffer of 4 lines, an offset of 3 (reachable
via the Down key) and one appended line, the buffer length equals H but
the code's strict `buffer_len > visible_height` test leaves the offset
at 3, not `5 - 5 = 0`. -/
theorem autoscroll_exact_height_counterexample :
    ¬ (∀ (vh : Nat) (new buf : List String) (off : Nat), 0 < vh → 0 < new.length →
        (vh ≤ (buf ++ new).length →
          (drain_pane vh new (buf, off)).2 = (buf ++ new).length - vh) ∧
        ((buf ++ new).length < vh → (drain_pane vh new (buf, off)).2 = 0)) := by
  intro h
  have h2 := (h 5 ["e"] ["a", "b", "c", "d"] 3 (by decide) (by decide)).1 (by decide)
  exact absurd h2 (by decide)

/-- C4 amended: after the drain appends at least one line, if the
buffer length strictly exceeds the visible height H the offset equals
`buffer_length - H`; if the buffer length is ≤ H (including exactly H)
the offset is left unchanged — so it stays 0 only if it was 0. -/
theorem drain_autoscroll_spec (vh : Nat) (new buf : List String) (off : Nat)
    (hvh : 0 < vh) (hlen : buf.length + new.length < 65536) :
    (drain_pane vh new (buf, off)).1 = buf ++ new ∧
    (0 < new.length → vh < buf.length + new.length →
      (drain_pane vh new (buf, off)).2 = buf.length + new.length - vh) ∧
    (buf.length + new.length ≤ vh → (drain_pane vh new (buf, off)).2 = off) := by
  refine ⟨drain_pane_fst vh new buf off, ?_, ?_⟩
  · intro hn hv
    rw [drain_pane_snd_closed vh new buf off hlen, if_pos ⟨hn, hv, hvh⟩]
  · intro hv
    rw [drain_pane_snd_closed vh new buf off hlen]
    split_ifs with hc
    · omega
    · rfl

theorem drain_autoscroll_witness :
    (drain_pane 3 ["d", "e"] (["a", "b", "c"], 0)).1 = ["a", "b", "c", "d", "e"] ∧
    (drain_pane 3 ["d", "e"] (["a", "b", "c"], 0)).2 = 2 :=
  ⟨(drain_autoscroll_spec 3 ["d", "e"] ["a", "b", "c"] 0 (by decide) (by decide)).1,
   (drain_autoscroll_spec 3 ["d", "e"] ["a", "b", "c"] 0 (by decide) (by decide)).2.1
     (by decide) (by decide)⟩

/-- C5 counterexample: the claim says each emitted line is the line
content with only its trailing newline stripped; the code calls
`line.trim_end()`, which also strips other trailing whitespace.  On the
stream `"a \n"` the code emits `"a"`, not `"a "`. -/
theorem reader_trim_counterexample :
    ¬ (∀ (ending : StreamEnd) (cs : List Char),
        handle_output_owned ending cs = (stream_lines cs).map strip_trailing_newline) := by
  intro h
  have h2 := h StreamEnd.eof ['a', ' ', '\n']
  exact absurd h2 (by decide)

/-- C5 amended: the reader emits the stream's completed lines in
stream order, each emitted line stripped of all trailing whitespace
(the newline included): at a clean end-of-stream the final
newline-less segment, if any, is emitted as the last line, while on a
read error the loop exits without emitting the partially buffered
segment; either way it terminates cleanly — the final `read_line`
result (`Ok(0)` or `Err`) reaches the loop guard as 0 via
`unwrap_or(0)`, and no error is emitted or propagated. -/
theorem reader_emits_trimmed_lines (ending : StreamEnd) (cs : List Char) :
    handle_output_owned StreamEnd.eof cs = (stream_lines cs).map rust_trim_end ∧
    handle_output_owned StreamEnd.readError cs = (complete_lines cs).map rust_trim_end ∧
    unwrap_or_zero (stream_end_read ending) = 0 := by
  refine ⟨reader_loop_eof_eq_map_trim cs [], reader_loop_err_eq_map_trim cs [], ?_⟩
  cases ending <;> rfl

/-- C6: `stop_all` performs exactly one Stop send per session, in
session order, and then blocks for the 200 ms grace period; dropping
the `ProcessManager` performs the identical broadcast-and-wait. -/
theorem stop_all_broadcast (m : ProcessManager) :
    (stop_all m).1 = m.control_senders.map (fun tx => (tx, ProcessCommand.stop)) ∧
    (stop_all m).1.length = m.control_senders.length ∧
    (stop_all m).2 = 200 ∧
    drop_manager m = stop_all m := by
  refine ⟨send_stop_events_eq_map m.control_senders, ?_, rfl, rfl⟩
  simp [stop_all, send_stop_events_eq_map]

/-- C7: a digit key `c` with 1-based index within the pane count flips
exactly that pane's running flag (all others unchanged), leaves the
offsets and buffers alone, and sends exactly one command — Start if the
flag is now true, Stop if now false — to that session only; a digit key
beyond the pane count changes nothing and sends nothing. -/
theorem digit_toggle_spec (st : UiState) (c : Char)
    (h1 : '1' ≤ c) (h9 : c ≤ '9')
    (hlen : st.scroll_offsets.length = st.running.length) :
    (c.toNat - 49 < st.running.length →
      (handle_input_event (some (KeyCode.charKey c)) st).1 = false ∧
      (handle_input_event (some (KeyCode.charKey c)) st).2.1.scroll_offsets =
        st.scroll_offsets ∧
      (handle_input_event (some (KeyCode.charKey c)) st).2.1.buffers = st.buffers ∧
      (handle_input_event (some (KeyCode.charKey c)) st).2.1.running.length =
        st.running.length ∧
      (handle_input_event (some (KeyCode.charKey c)) st).2.1.running.getD (c.toNat - 49) false
        = !(st.running.getD (c.toNat - 49) false) ∧
      (∀ j, j ≠ c.toNat - 49 →
        (handle_input_event (some (KeyCode.charKey c)) st).2.1.running.getD j false
          = st.running.getD j false) ∧
      (handle_input_event (some (KeyCode.charKey c)) st).2.2 =
        [(c.toNat - 49,
          if st.running.getD (c.toNat - 49) false then ProcessCommand.stop
          else ProcessCommand.start)]) ∧
    (st.running.length ≤ c.toNat - 49 →
      handle_input_event (some (KeyCode.charKey c)) st = (false, st, [])) := by
  have hq : c ≠ 'q' := by
    intro e
    subst e
    exact absurd h9 (by decide)
  constructor
  · intro h2
    have hev : handle_input_event (some (KeyCode.charKey c)) st =
        (false,
         ⟨st.running.set (c.toNat - 49) (!(st.running.getD (c.toNat - 49) false)),
          st.scroll_offsets, st.buffers⟩,
         [(c.toNat - 49,
           if !(st.running.getD (c.toNat - 49) false) then ProcessCommand.start
           else ProcessCommand.stop)]) := by
      simp only [handle_input_event, if_neg hq, if_pos (And.intro h1 h2)]
    rw [hev]
    refine ⟨rfl, rfl, rfl, List.length_set st.running _ _, ?_, ?_, ?_⟩
    · exact list_getD_set_self st.running _ _ false h2
    · intro j hj
      exact list_getD_set_ne st.running _ j _ false (fun e => hj e.symm)
    · cases hb : st.running.getD (c.toNat - 49) false <;> simp [hb]
  · intro hge
    have hn1 : ¬('1' ≤ c ∧ c.toNat - 49 < st.running.length) := by
      rintro ⟨-, hlt⟩
      omega
    have hn2 : ¬('1' ≤ c ∧ c.toNat - 49 < st.scroll_offsets.length) := by
      rw [hlen]
      exact hn1
    simp only [handle_input_event, if_neg hq, if_neg hn1, if_neg hn2]

theorem digit_toggle_witness :
    (handle_input_event (some (KeyCode.charKey '2'))
        ⟨[true, true, true], [4, 5, 6], [[], [], []]⟩).2.1.running.getD 1 false
      = !(([true, true, true] : List Bool).getD 1 false) ∧
    handle_input_event (some (KeyCode.charKey '9'))
        ⟨[true, true, true], [4, 5, 6], [[], [], []]⟩
      = (false, ⟨[true, true, true], [4, 5, 6], [[], [], []]⟩, []) :=
  ⟨((digit_toggle_spec ⟨[true, true, true], [4, 5, 6], [[], [], []]⟩ '2'
      (by decide) (by decide) rfl).1 (by decide)).2.2.2.2.1,
   (digit_toggle_spec ⟨[true, true, true], [4, 5, 6], [[], [], []]⟩ '9'
      (by decide) (by decide) rfl).2 (by decide)⟩

/-- C8: the scroll offset stays within `[0, max(0, buffer_length - 1)]`:
Up at offset 0 stays at 0, Down at offset `buffer_length - 1` is
unchanged, and both arrow handling and the drain-step autoscroll
preserve the range. -/
theorem scroll_offset_clamp (len o vh : Nat) (new buf : List String) (off : Nat) :
    up_scroll 0 = 0 ∧
    down_scroll len (len - 1) = len - 1 ∧
    (o ≤ max 0 (len - 1) → up_scroll o ≤ max 0 (len - 1)) ∧
    (o ≤ max 0 (len - 1) → down_scroll len o ≤ max 0 (len - 1)) ∧
    (off ≤ max 0 (buf.length - 1) →
      (drain_pane vh new (buf, off)).2 ≤
        max 0 ((drain_pane vh new (buf, off)).1.length - 1)) := by
  refine ⟨rfl, ?_, ?_, ?_, ?_⟩
  · unfold down_scroll
    have := Nat.mod_le (len - 1) 65536
    split_ifs <;> omega
  · intro h
    unfold up_scroll
    simp only [Nat.zero_max] at h ⊢
    split_ifs <;> omega
  · intro h
    unfold down_scroll
    have := Nat.mod_le (len - 1) 65536
    simp only [Nat.zero_max] at h ⊢
    split_ifs <;> omega
  · intro h
    rw [drain_pane_fst]
    have h2 : off ≤ buf.length - 1 := by simpa [Nat.zero_max] using h
    have h3 := drain_pane_snd_le vh new buf off h2
    simpa [Nat.zero_max] using h3

theorem scroll_offset_clamp_witness :
    up_scroll 1 ≤ max 0 (3 - 1) ∧
    down_scroll 3 2 ≤ max 0 (3 - 1) ∧
    (drain_pane 2 ["b", "c"] (["a"], 0)).2 ≤
      max 0 ((drain_pane 2 ["b", "c"] (["a"], 0)).1.length - 1) :=
  ⟨(scroll_offset_clamp 3 1 2 ["b", "c"] ["a"] 0).2.2.1 (by decide),
   (scroll_offset_clamp 3 2 2 ["b", "c"] ["a"] 0).2.2.2.1 (by decide),
   (scroll_offset_clamp 3 1 2 ["b", "c"] ["a"] 0).2.2.2.2 (by decide)⟩

/-- C9: when spawning fails (`spawn_child`'s `.expect` panics the
session task), the session does not reach Running: no child handle is
recorded, no readers are activated, and the spawn is not retried — the
dead task processes no further commands. -/
theorem spawn_failure_fatal (s : SessionState) (h : s.child = none) :
    session_step none ProcessCommand.start s = (none, [SessionEvent.spawnAttempt]) ∧
    (∀ rest : List ProcessCommand,
      session_loop none (ProcessCommand.start :: rest) s =
        (none, [SessionEvent.spawnAttempt])) := by
  constructor
  · simp [session_step, h]
  · intro rest
    simp [session_loop, session_step, h]

theorem spawn_failure_witness :
    session_loop none [ProcessCommand.start, ProcessCommand.start] ⟨none, none⟩ =
      (none, [SessionEvent.spawnAttempt]) :=
  (spawn_failure_fatal ⟨none, none⟩ rfl).2 [ProcessCommand.start]

/-- C10: an Up or Down key event only adjusts scroll offsets: the
running flags and pane buffers are unchanged and no command is sent to
any session. -/
theorem arrow_keys_scroll_only (st : UiState) :
    (handle_input_event (some KeyCode.upKey) st).1 = false ∧
    (handle_input_event (some KeyCode.upKey) st).2.1.running = st.running ∧
    (handle_input_event (some KeyCode.upKey) st).2.1.buffers = st.buffers ∧
    (handle_input_event (some KeyCode.upKey) st).2.1.scroll_offsets =
      st.scroll_offsets.map up_scroll ∧
    (handle_input_event (some KeyCode.upKey) st).2.2 = [] ∧
    (handle_input_event (some KeyCode.downKey) st).1 = false ∧
    (handle_input_event (some KeyCode.downKey) st).2.1.running = st.running ∧
    (handle_input_event (some KeyCode.downKey) st).2.1.buffers = st.buffers ∧
    (handle_input_event (some KeyCode.downKey) st).2.2 = [] := by
  simp [handle_input_event]

end Starter
